import Mathlib

/-!
Verification development for the Zig backend of wit-bindgen
(`crates/zig/src/lib.rs`).  The generator walks a resolved schema
(packages, interfaces, worlds, typed functions) and emits one Zig text
artifact per world.  The definitions below are a shallow embedding of the
code paths exercised by the world-generation pipeline: the type mappers
(`get_zig_ty`, `get_zig_binding_ty`), the per-function lift/lower binding
generator (`FunctionBindgen`, `exportFunc` for `InterfaceGenerator::export`),
the world-level methods (`import_interface`, `export_interface`,
`export_funcs`, `import_funcs`, `import_types`, `finish`), and small
operational models of the fixed Zig snippets the generator emits for
string lowering and post-return cleanup.  Rust `todo!()` / `unimplemented!()`
/ panicking `unwrap()` branches are modelled by `Option.none`: a `none`
result is an aborted generation run and no artifact is produced.
-/

/-- The `wit_parser::Type` enum: primitives, plus `Id` references to
type definitions. -/
inductive Ty where
  | bool | u8 | u16 | u32 | u64 | s8 | s16 | s32 | s64
  | float32 | float64 | char
  | str
  | id (i : Nat)
deriving DecidableEq, Repr

/-- `wit_parser::Function`: a name, ordered named parameters, ordered
result types. -/
structure Func where
  name : String
  params : List (String × Ty)
  results : List Ty
deriving DecidableEq, Repr

/-- `wit_parser::WorldKey`: worlds key their items either by a plain name
or by an interface id. -/
inductive WorldKey where
  | name (s : String)
  | iface (id : Nat)
deriving DecidableEq, Repr

/-- `wit_parser::WorldItem`: each world import/export is an interface, a
world-level function, or a type. -/
inductive WorldItem where
  | iface (id : Nat)
  | func (f : Func)
  | type (id : Nat)
deriving DecidableEq, Repr

/-- `wit_parser::World`: name plus ordered keyed imports and exports. -/
structure World where
  name : String
  imports : List (WorldKey × WorldItem)
  exports : List (WorldKey × WorldItem)
deriving DecidableEq, Repr

/-- `wit_parser::PackageName`: namespace and package name. -/
structure Package where
  ns : String
  name : String
deriving DecidableEq, Repr

/-- `wit_parser::Interface`: optional name, owning package id, ordered
functions. -/
structure InterfaceDef where
  name : Option String
  package : Option Nat
  functions : List (String × Func)
deriving DecidableEq, Repr

/-- The parts of `wit_parser::Resolve` this backend reads: the three
id-indexed arenas. -/
structure Resolve where
  worlds : List World
  interfaces : List InterfaceDef
  packages : List Package
deriving DecidableEq, Repr

/-- Modelled from the external `heck` crate (an out-of-scope collaborator;
the spec treats case conversion as a policy input): split a character
list at the separator characters used by WIT identifiers. -/
def splitChars (sep : Char → Bool) : List Char → List (List Char)
  | [] => [[]]
  | c :: rest =>
      match splitChars sep rest with
      | [] => if sep c then [[], [c]] else [[c]]
      | w :: ws => if sep c then [] :: w :: ws else (c :: w) :: ws

/-- Modelled from the external `heck` crate: the non-empty words of an
identifier. -/
def wordsOf (s : String) : List String :=
  ((splitChars (fun c => c == '-' || c == '_' || c == ' ') s.data).map String.mk).filter
    (fun w => w ≠ "")

/-- Modelled from the external `heck` crate: capitalize one word. -/
def capWord (w : String) : String :=
  match w.data with
  | [] => ""
  | c :: cs => String.mk (c.toUpper :: cs.map Char.toLower)

/-- Modelled from the external `heck` crate: `to_upper_camel_case`. -/
def toUpperCamelCase (s : String) : String :=
  String.join ((wordsOf s).map capWord)

/-- Modelled from the external `heck` crate: `to_snake_case`. -/
def toSnakeCase (s : String) : String :=
  String.intercalate "_" ((wordsOf s).map (fun w => String.mk (w.data.map Char.toLower)))

/-- Modelled from the external `heck` crate: `to_kebab_case`. -/
def toKebabCase (s : String) : String :=
  String.intercalate "-" ((wordsOf s).map (fun w => String.mk (w.data.map Char.toLower)))

/-- `const ZIGKEYWORDS: [&str; 0] = [];` — the configured reserved-word
set is empty in this backend. -/
def ZIGKEYWORDS : List String := []

/-- `avoid_keyword`: append a trailing underscore when the identifier is
in the reserved-word set. -/
def avoid_keyword (s : String) : String :=
  if ZIGKEYWORDS.contains s then s ++ "_" else s

/-- `ZigWasm::get_zig_ty` — the storage-type mapper.  `todo!()` branches
(floats, char, compound `Id` types) are `none`. -/
def get_zig_ty : Ty → Option String
  | .bool => some "bool"
  | .u8 => some "u8"
  | .u16 => some "u16"
  | .u32 => some "u32"
  | .u64 => some "u64"
  | .s8 => some "s8"
  | .s16 => some "s16"
  | .s32 => some "s32"
  | .s64 => some "s64"
  | .float32 => none
  | .float64 => none
  | .char => none
  | .str => some "[]u8"
  | .id _ => none

/-- `InterfaceGenerator::get_zig_binding_ty` — the wire-type mapper used
for the ABI return position.  `todo!()` branches are `none`. -/
def get_zig_binding_ty : Ty → Option String
  | .bool => some "bool"
  | .u8 => some "u8"
  | .u16 => some "u16"
  | .u32 => some "u32"
  | .u64 => some "u64"
  | .s8 => some "s8"
  | .s16 => some "s16"
  | .s32 => some "s32"
  | .s64 => some "s64"
  | .float32 => none
  | .float64 => none
  | .char => none
  | .str => some "[*]u8"
  | .id _ => none

/-- The primitive types this backend supports (both mappers implement
them): bool, u8..u64, s8..s64. -/
def supportedPrimitives : List Ty :=
  [.bool, .u8, .u16, .u32, .u64, .s8, .s16, .s32, .s64]

/-- The statement forms the `FunctionBindgen` sub-buffers can hold, one
constructor per `push_str` literal in `lift_value` / `lower_value`.
`renderStmt` reproduces the exact pushed text. -/
inductive ZigStmt where
  | declSlice (p : String)
  | returnResult
  | lowerStringBlock
deriving DecidableEq, Repr

/-- The constant text `lower_value` pushes for a `Type::String` result:
allocate the 8-byte scratch header, write (pointer, length) as two
little-endian u32 words, return the scratch address. -/
def lowerStringText : String :=
  "const ret = alloc(8);\n              std.mem.writeIntLittle(u32, ret[0..4], @intCast(@intFromPtr(result.ptr)));\n              std.mem.writeIntLittle(u32, ret[4..8], @intCast(result.len));\n              return ret;\n            \x7d\n              "

/-- Text of each statement form, exactly as `lift_value` / `lower_value`
push it. -/
def renderStmt : ZigStmt → String
  | .declSlice p => "const " ++ p ++ " = " ++ p ++ "Ptr[0.." ++ p ++ "Length];\n"
  | .returnResult => "return result;\n\x7d\n"
  | .lowerStringBlock => lowerStringText

/-- Sizes of the allocations each statement form performs at the emitted
artifact's run time: only the string-lowering block allocates, via
`alloc(8)`. -/
def stmtAllocSizes : ZigStmt → List Nat
  | .declSlice _ => []
  | .returnResult => []
  | .lowerStringBlock => [8]

/-- `FunctionBindgen`: accumulated ABI parameters (name, wire type) and
the lift/lower sub-buffers. -/
structure FunctionBindgen where
  args : List (String × String) := []
  lower_src : List ZigStmt := []
  lift_src : List ZigStmt := []
deriving DecidableEq, Repr

/-- `FunctionBindgen::lift_value`: primitives pass through contributing
one ABI parameter; strings declare a byte-range over
`[pointer, pointer+length)` and contribute the two in-place ABI
parameters `<name>Ptr`, `<name>Length`; `todo!()` branches are `none`. -/
def lift_value (fb : FunctionBindgen) (param : String) (ty : Ty) : Option FunctionBindgen :=
  match ty with
  | .bool => some { fb with args := fb.args ++ [(param, "bool")] }
  | .u8 => some { fb with args := fb.args ++ [(param, "u8")] }
  | .u16 => some { fb with args := fb.args ++ [(param, "u16")] }
  | .u32 => some { fb with args := fb.args ++ [(param, "u32")] }
  | .u64 => some { fb with args := fb.args ++ [(param, "u64")] }
  | .s8 => some { fb with args := fb.args ++ [(param, "s8")] }
  | .s16 => some { fb with args := fb.args ++ [(param, "s16")] }
  | .s32 => some { fb with args := fb.args ++ [(param, "s32")] }
  | .s64 => some { fb with args := fb.args ++ [(param, "s64")] }
  | .float32 => none
  | .float64 => none
  | .char => none
  | .str => some { fb with
      lift_src := fb.lift_src ++ [.declSlice param],
      args := fb.args ++ [(param ++ "Ptr", "[*]u8"), (param ++ "Length", "u32")] }
  | .id _ => none

/-- `FunctionBindgen::lift` — delegates to `lift_value`. -/
def lift (fb : FunctionBindgen) (name : String) (ty : Ty) : Option FunctionBindgen :=
  lift_value fb name ty

/-- `FunctionBindgen::lower_value`: primitives return the intermediate
straight back; a string result emits the fixed scratch-header block;
`Type::Id` is `todo!()`. -/
def lower_value (fb : FunctionBindgen) (_param : String) (ty : Ty) : Option FunctionBindgen :=
  match ty with
  | .bool | .u8 | .u16 | .u32 | .u64 | .s8 | .s16 | .s32 | .s64
  | .float32 | .float64 | .char =>
      some { fb with lower_src := fb.lower_src ++ [.returnResult] }
  | .str => some { fb with lower_src := fb.lower_src ++ [.lowerStringBlock] }
  | .id _ => none

/-- `FunctionBindgen::lower` — builds (and discards) `lower_{name}`, then
delegates to `lower_value`. -/
def lower (fb : FunctionBindgen) (name : String) (ty : Ty) : Option FunctionBindgen :=
  lower_value fb name ty

/-- The lift pass of `InterfaceGenerator::export`'s single-result arm:
`func.params.iter().for_each(|(name, ty)| fb.lift(&avoid_keyword(&name.to_snake_case()), ty))`. -/
def liftStage (f : Func) : Option FunctionBindgen :=
  f.params.foldlM (fun fb p => lift fb (avoid_keyword (toSnakeCase p.1)) p.2) {}

/-- The per-interface generator state used by the export path: its
accumulated source text and the scope key it was created with. -/
structure InterfaceGenerator where
  src : String := ""
  name : Option WorldKey := none
deriving DecidableEq, Repr

/-- `InterfaceGenerator::get_interface_var_name`: snake-cased plain key,
UpperCamelCase interface name (after the package lookups the source
performs), or `Guest` at world scope. -/
def get_interface_var_name (resolve : Resolve) (nm : Option WorldKey) : Option String :=
  match nm with
  | some (.name k) => some (toSnakeCase k)
  | some (.iface id) =>
      match resolve.interfaces.get? id with
      | none => none
      | some iface =>
          match iface.package with
          | none => none
          | some pid =>
              match resolve.packages.get? pid with
              | none => none
              | some _pkg =>
                  match iface.name with
                  | none => none
                  | some iname => some (toUpperCamelCase iname)
  | none => some "Guest"

/-- `InterfaceGenerator::get_package_name_with`: UpperCamelCase plain
keys; interface keys become the fully qualified wire-level prefix
`namespace:package/interface#`. -/
def get_package_name_with (resolve : Resolve) (key : WorldKey) : Option String :=
  match key with
  | .name k => some (toUpperCamelCase k)
  | .iface id =>
      match resolve.interfaces.get? id with
      | none => none
      | some iface =>
          match iface.package with
          | none => none
          | some pid =>
              match resolve.packages.get? pid with
              | none => none
              | some pkg =>
                  match iface.name with
                  | none => none
                  | some iname =>
                      some (pkg.ns ++ ":" ++ pkg.name ++ "/" ++ iname ++ "#")

/-- `InterfaceGenerator::get_package_name`. -/
def get_package_name (resolve : Resolve) (world : String) (nm : Option WorldKey) : Option String :=
  match nm with
  | some key => get_package_name_with resolve key
  | none => some (toUpperCamelCase world)

/-- The export symbol the primary binding is declared under: the prefixed
quoted form `@"<pre><name>"` for interface functions, `__export_<name>`
for world-level functions (resolved name `<name>`). -/
def resolvedExportName (pre : Option String) (fname : String) : String :=
  match pre with
  | some p => p ++ fname
  | none => fname

/-- The Zig identifier of the generated post-return entry point: the
fixed template `__post_return_` prepended to the resolved export name. -/
def postZigFnName (pre : Option String) (fname : String) : String :=
  "__post_return_" ++ resolvedExportName pre fname

/-- The post-return block `InterfaceGenerator::export` pushes when the
oracle says cleanup is needed, in its two literal variants (prefixed and
unprefixed differ in quoting and indentation only). -/
def postBlockText (pre : Option String) (fname : String) : String :=
  match pre with
  | some _ =>
      "export fn @\"" ++ postZigFnName pre fname ++ "\"(arg: u32) void \x7b\n                  var buffer: [8]u8 = .\x7b0\x7d ** 8;\n                  std.mem.writeIntNative(u32, buffer[0..][0..@sizeOf(u32)], arg);\n                  const stringPtr = buffer[0..4];\n                  const stringSize = buffer[4..8];\n                  const bytesPtr = std.mem.readIntLittle(u32, @ptrCast(stringPtr));\n                  const ptr_size = std.mem.readIntLittle(u32, @ptrCast(stringSize));\n                  const casted: [*]u8 = @ptrFromInt(bytesPtr);\n                  allocator.free(casted[0..ptr_size]);\n                \x7d\n                \n                "
  | none =>
      "export fn " ++ postZigFnName pre fname ++ "(arg: u32) void \x7b\n              var buffer: [8]u8 = .\x7b0\x7d ** 8;\n              std.mem.writeIntNative(u32, buffer[0..][0..@sizeOf(u32)], arg);\n              const stringPtr = buffer[0..4];\n              const stringSize = buffer[4..8];\n              const bytesPtr = std.mem.readIntLittle(u32, @ptrCast(stringPtr));\n              const ptr_size = std.mem.readIntLittle(u32, @ptrCast(stringSize));\n              const casted: [*]u8 = @ptrFromInt(bytesPtr);\n              allocator.free(casted[0..ptr_size]);\n            \x7d\n            \n            "

/-- The invocation argument list: `func.params` joined in original
declaration order by the source's `i < len - 1` comma rule. -/
def joinParams (ps : List String) : String :=
  String.join (ps.enum.map (fun p => p.2 ++ if p.1 < ps.length - 1 then ", " else ""))

/-- `InterfaceGenerator::export` without its trailing oracle-conditional
post-return append: run the lift/lower pipeline (by result arity), build
the export declaration, unwrap the last result type (a panic — `none` —
when there is none), map it through `get_zig_binding_ty`, and append
declaration, lift text, invocation and lower text to the generator
source.  `fbStage` is the arity dispatch over `func.results.len()` that
fills the `FunctionBindgen` (lifting every parameter and lowering the
single result in the one-result arm, and — mirroring the empty `0 =>`
and `_ =>` arms — doing nothing otherwise). -/
def fbStage (f : Func) : Option FunctionBindgen :=
  match f.results with
  | [] => some ({} : FunctionBindgen)
  | [ty] =>
      match liftStage f with
      | none => none
      | some fb => lower fb "result" ty
  | _ => some ({} : FunctionBindgen)

/-- The export declaration head built from the resolved symbol and the
accumulated ABI parameters. -/
def interfaceDecl (pre : Option String) (fname : String)
    (args : List (String × String)) : String :=
  (match pre with
   | some p => "export fn @\"" ++ p ++ fname ++ "\"("
   | none => "export fn __export_" ++ fname ++ "(")
  ++ String.join (args.map (fun a => a.1 ++ ": " ++ a.2 ++ ", "))
  ++ ") "

def exportFuncCore (resolve : Resolve) (ig : InterfaceGenerator) (f : Func)
    (pre : Option String) : Option InterfaceGenerator :=
  match fbStage f with
  | none => none
  | some fb =>
      match f.results.getLast? with
      | none => none
      | some result =>
          match get_zig_binding_ty result with
          | none => none
          | some bty =>
              match get_interface_var_name resolve ig.name with
              | none => none
              | some ivar =>
                  let invoke := "const result = " ++ ivar ++ "." ++ f.name ++ "("
                    ++ joinParams (f.params.map (fun p => p.1)) ++ ")"
                  let body := bty ++ "\x7b\n"
                    ++ String.join (fb.lift_src.map renderStmt)
                    ++ invoke ++ ";\n"
                    ++ (match f.results with
                        | [_] => String.join (fb.lower_src.map renderStmt)
                        | _ => "")
                    ++ "\n"
                  some { ig with
                    src := ig.src ++ interfaceDecl pre f.name fb.args ++ body }

/-- `InterfaceGenerator::export`: the core binding, then the post-return
block appended iff the external classification oracle
(`abi::guest_export_needs_post_return`) answers true. -/
def exportFunc (resolve : Resolve) (ig : InterfaceGenerator) (f : Func)
    (pre : Option String) (oracle : Bool) : Option InterfaceGenerator :=
  (exportFuncCore resolve ig f pre).map
    (fun g => if oracle then { g with src := g.src ++ postBlockText pre f.name } else g)

/-- The `ZigWasm` generator state read by the modelled paths: the world
name captured by `preprocess` and the accumulated source. -/
structure ZigState where
  world : String := ""
  src : String := ""
deriving DecidableEq, Repr

/-- `ZigWasm::import_interface`: builds a generator for the keyed scope,
computes the qualified function prefix via `get_package_name`, runs
`InterfaceGenerator::export` over the interface's functions in
declaration order, and appends the generator's source. -/
def import_interface (resolve : Resolve) (st : ZigState) (key : WorldKey)
    (ifaceId : Nat) (oracle : Func → Bool) : Option ZigState :=
  let ig0 : InterfaceGenerator := { src := "", name := some key }
  match get_package_name resolve st.world ig0.name with
  | none => none
  | some pre =>
      match resolve.interfaces.get? ifaceId with
      | none => none
      | some iface =>
          match iface.functions.foldlM
              (fun g nf => exportFunc resolve g nf.2 (some pre) (oracle nf.2)) ig0 with
          | none => none
          | some ig => some { st with src := st.src ++ ig.src }

/-- `ZigWasm::export_interface`: pushes a `const <UpperCamelName> =
struct` wrapper and, for each function in declaration order, an
unqualified stub signature built from `get_zig_ty` (`todo!()` branches
are `none`; zero- and multi-result arms push nothing after the
parameters).  `paramStubStep` is the parameter loop body
(`{name}: {get_zig_ty(ty)}, `), shared verbatim with the `finish` stub
loop; `ifaceStubStep` is the per-function body. -/
def paramStubStep (s : String) (p : String × Ty) : Option String :=
  match get_zig_ty p.2 with
  | none => none
  | some t => some (s ++ p.1 ++ ": " ++ t ++ ", ")

def ifaceStubStep (s : String) (nf : String × Func) : Option String :=
  match nf.2.params.foldlM paramStubStep (s ++ "fn " ++ nf.2.name ++ "(") with
  | none => none
  | some s =>
      match nf.2.results with
      | [] => some s
      | [r] =>
          match get_zig_ty r with
          | none => none
          | some t => some (s ++ ") " ++ t ++ " \x7b\x7d\n")
      | _ => some s

def export_interface (resolve : Resolve) (st : ZigState) (_key : WorldKey)
    (ifaceId : Nat) : Option ZigState :=
  match resolve.interfaces.get? ifaceId with
  | none => none
  | some iface =>
      match iface.name with
      | none => none
      | some iname =>
          match iface.functions.foldlM ifaceStubStep
              (st.src ++ "const " ++ toUpperCamelCase iname ++ " = struct \x7b\n") with
          | none => none
          | some s => some { st with src := s ++ "\x7d;\n\n" }

/-- `ZigWasm::import_funcs` is `todo!()`: reaching it panics. -/
def import_funcs : Option ZigState :=
  none

/-- `ZigWasm::import_types` is `todo!()`: reaching it panics. -/
def import_types : Option ZigState :=
  none

/-- `ZigWasm::export_funcs`: looks up the world, builds a world-scoped
generator (`name = None`), runs `InterfaceGenerator::export` with no
prefix over the world-level functions in order, and appends the
generator's source (`gen.finish()` is a no-op: `export_funcs` stays
empty). -/
def export_funcs (resolve : Resolve) (st : ZigState) (world : Nat)
    (funcs : List (String × Func)) (oracle : Func → Bool) : Option ZigState :=
  match resolve.worlds.get? world with
  | none => none
  | some _wrld =>
      match funcs.foldlM
          (fun g nf => exportFunc resolve g nf.2 none (oracle nf.2))
          ({ src := "", name := none } : InterfaceGenerator) with
      | none => none
      | some ig => some { st with src := st.src ++ ig.src }

/-- The fixed runtime preamble `finish` pushes first: allocator state,
`alloc`, and `cabi_realloc`. -/
def preambleText : String :=
  "const std = @import(\"std\");\n        const mem = std.mem;\n        var gpa = std.heap.GeneralPurposeAllocator(.\x7b\x7d)\x7b\x7d;\n        const allocator = gpa.allocator();\n        \n        fn alloc(len: usize) [*]u8 \x7b\n            const buf = allocator.alloc(u8, len) catch |e| \x7b\n                std.debug.panic(\"FAILED TO ALLOC MEM \x7b\x7d\", .\x7be\x7d);\n            \x7d;\n            return buf.ptr;\n        \x7d\n        \n        export fn cabi_realloc(origPtr: *[]u8, origSize: u8, alignment: u8, newSize: u8) ?[*]u8 \x7b\n            _ = origSize;\n            _ = alignment;\n            const buf = allocator.realloc(origPtr.*, newSize) catch \x7b\n                return null;\n            \x7d;\n            return buf.ptr;\n        \x7d\n\n        "

/-- The text `finish` pushes between the `Guest` struct and the export
registration lines. -/
def comptimeHeadText : String :=
  "\x7d;\n\n            comptime \x7b\n        "

/-- The trailing program-entry stub `finish` pushes last. -/
def mainStubText : String :=
  "\x7d\n        \n        pub fn main() void \x7b\x7d"

/-- One `@export` registration line for a primary export symbol. -/
def exportLine (n : String) : String :=
  "@export(__export_" ++ n ++ ", .\x7b .name = \"" ++ n ++ "\" \x7d);\n"

/-- One `@export` registration line for a post-return symbol, exported
under the fixed `cabi_post_<name>` template. -/
def postReturnLine (n : String) : String :=
  "@export(__post_return_" ++ n ++ ", . \x7b .name = \"cabi_post_" ++ n ++ "\" \x7d);\n"

/-- The loop of `ZigWasm::finish` over `world.exports`: interfaces are
skipped, world-level functions push a `Guest` stub line (via
`get_zig_ty`) and record their name in `export_names` and — iff the
oracle answers true — in `post_return_names`; an exported
`WorldItem::Type` is `todo!()`.  The accumulator is
(source text, export names, post-return names).  `guestFuncText` is the
stub text one function pushes (its parameters and single result mapped
through `get_zig_ty`). -/
def guestFuncText (f : Func) (s : String) : Option String :=
  match f.params.foldlM paramStubStep s with
  | none => none
  | some s =>
      match f.results with
      | [] => some s
      | [r] =>
          match get_zig_ty r with
          | none => none
          | some t => some (s ++ ") " ++ t ++ " \x7b\x7d\n")
      | _ => some s

def guestStep (oracle : Func → Bool) :
    (String × List String × List String) → WorldKey × WorldItem →
    Option (String × List String × List String)
  | acc, (_, .iface _) => some acc
  | acc, (_, .func f) =>
      (guestFuncText f (acc.1 ++ "fn " ++ f.name ++ "(")).map
        (fun s => (s, acc.2.1 ++ [f.name],
          acc.2.2 ++ (if oracle f then [f.name] else [])))
  | _, (_, .type _) => none

/-- The `finish` export loop: `guestStep` folded over the world's
exports. -/
def guestLoop (oracle : Func → Bool) (items : List (WorldKey × WorldItem))
    (acc : String × List String × List String) :
    Option (String × List String × List String) :=
  items.foldlM (guestStep oracle) acc

/-- `ZigWasm::finish`: prepend the runtime preamble to the accumulated
source, emit the `Guest` struct and registration tables from the world's
exports, append the program-entry stub, and produce the single artifact
`<kebab-world-name>.zig`.  Any `todo!()` on the way aborts with no
artifact. -/
def finish (resolve : Resolve) (st : ZigState) (id : Nat) (oracle : Func → Bool) :
    Option (String × String) :=
  match resolve.worlds.get? id with
  | none => none
  | some world =>
      match guestLoop oracle world.exports
          (preambleText ++ st.src ++ "const Guest = struct \x7b\n", [], []) with
      | none => none
      | some acc =>
          some (toKebabCase world.name ++ ".zig",
            acc.1 ++ comptimeHeadText
              ++ String.join (acc.2.1.map exportLine)
              ++ String.join (acc.2.2.map postReturnLine)
              ++ mainStubText)

/-- Modelled from the spec: the `WorldGenerator::generate` driver of
`wit-bindgen-core` (repository code outside `src/`), which runs
`preprocess`, then per the spec's lifecycle walks the world's imports
(interfaces inline, world-level functions batched to `import_funcs`,
types batched to `import_types`, each batch only when non-empty), then
the exports (interfaces inline, world-level functions batched to
`export_funcs`), and finally `finish`.  `none` is an aborted run: no
artifact is written.  The `imported…`/`exported…` helpers are the
driver's per-kind partitions of the world's items, order preserved. -/
def importedIfaces (wrld : World) : List (WorldKey × Nat) :=
  wrld.imports.filterMap
    (fun it => match it.2 with | .iface i => some (it.1, i) | _ => none)

def importedFuncs (wrld : World) : List Func :=
  wrld.imports.filterMap
    (fun it => match it.2 with | .func f => some f | _ => none)

def importedTypes (wrld : World) : List Nat :=
  wrld.imports.filterMap
    (fun it => match it.2 with | .type t => some t | _ => none)

def exportedIfaces (wrld : World) : List (WorldKey × Nat) :=
  wrld.exports.filterMap
    (fun it => match it.2 with | .iface i => some (it.1, i) | _ => none)

def exportedFuncs (wrld : World) : List (String × Func) :=
  wrld.exports.filterMap
    (fun it => match it.2 with | .func f => some (f.name, f) | _ => none)

def generateWorld (resolve : Resolve) (w : Nat) (oracle : Func → Bool) :
    Option (String × String) :=
  match resolve.worlds.get? w with
  | none => none
  | some wrld =>
      match (importedIfaces wrld).foldlM
          (fun s ki => import_interface resolve s ki.1 ki.2 oracle)
          ({ world := wrld.name, src := "" } : ZigState) with
      | none => none
      | some st1 =>
          match (if (importedFuncs wrld).isEmpty then some st1 else import_funcs) with
          | none => none
          | some st2 =>
              match (if (importedTypes wrld).isEmpty then some st2 else import_types) with
              | none => none
              | some st3 =>
                  match (exportedIfaces wrld).foldlM
                      (fun s ki => export_interface resolve s ki.1 ki.2) st3 with
                  | none => none
                  | some st4 =>
                      match (if (exportedFuncs wrld).isEmpty then some st4
                             else export_funcs resolve st4 w (exportedFuncs wrld) oracle) with
                      | none => none
                      | some st5 => finish resolve st5 w oracle

/-- Write one byte (`v` truncated to 8 bits) at index `i` of a byte
buffer. -/
def setByte (buf : List Nat) (i v : Nat) : List Nat :=
  buf.set i (v % 256)

/-- `std.mem.writeIntLittle(u32, buf[off..off+4], v)`: store the low 32
bits of `v` little-endian.  (On the wasm32 target of this backend
`writeIntNative` is the same operation.) -/
def writeLE32 (buf : List Nat) (off v : Nat) : List Nat :=
  setByte (setByte (setByte (setByte buf off v) (off + 1) (v / 256))
    (off + 2) (v / 65536)) (off + 3) (v / 16777216)

/-- `std.mem.readIntLittle(u32, buf[off..off+4])`. -/
def readLE32 (buf : List Nat) (off : Nat) : Nat :=
  buf.getD off 0 + 256 * buf.getD (off + 1) 0 + 65536 * buf.getD (off + 2) 0
    + 16777216 * buf.getD (off + 3) 0

/-- Modelled from the spec: the MemoryBridge allocator state behind the
emitted preamble's `fn alloc` (the Zig `GeneralPurposeAllocator` is an
external collaborator).  A bump pointer plus a log of the
(pointer, size) allocations performed. -/
structure AllocState where
  next : Nat
  log : List (Nat × Nat)
deriving DecidableEq, Repr

/-- Modelled from the spec: `alloc(len)` — return a fresh pointer to
`len` bytes and record the allocation. -/
def allocOp (st : AllocState) (len : Nat) : Nat × AllocState :=
  (st.next, { next := st.next + len, log := st.log ++ [(st.next, len)] })

/-- Result of running the emitted string-lowering block: the returned
wire pointer, the scratch buffer's bytes, and the allocator state. -/
structure LowerRun where
  retPtr : Nat
  scratch : List Nat
  state : AllocState
deriving DecidableEq, Repr

/-- Operational model of `lowerStringText`, the block emitted for a
string result: `const ret = alloc(8);` then the two
`std.mem.writeIntLittle(u32, ...)` stores of `result.ptr` and
`result.len` into `ret[0..4]` / `ret[4..8]`, then `return ret;`.
`init` is whatever 8 bytes `alloc` returned. -/
def lowerStringSem (resultPtr resultLen : Nat) (init : List Nat)
    (st : AllocState) : LowerRun :=
  let a := allocOp st 8
  { retPtr := a.1,
    scratch := writeLE32 (writeLE32 init 0 resultPtr) 4 resultLen,
    state := a.2 }

/-- Operational model of the emitted post-return body (`postBlockText`):
an 8-byte local `buffer` zero-initialized, `writeIntNative(u32,
buffer[0..4], arg)`, the two `readIntLittle(u32, ...)` loads of
`bytesPtr` from `buffer[0..4]` and `ptr_size` from `buffer[4..8]`, and
finally `allocator.free(casted[0..ptr_size])`.  The value returned is
the (pointer, length) slice passed to `free`.  The body reads no heap
memory, so the model takes only the wire argument. -/
def postReturnSem (arg : Nat) : Nat × Nat :=
  let buffer := List.replicate 8 0
  let buffer := writeLE32 buffer 0 arg
  let bytesPtr := readLE32 buffer 0
  let ptr_size := readLE32 buffer 4
  (bytesPtr, ptr_size)

/-- Comparison definition following the spec's words: the ABI parameters
one source parameter should contribute — primitives map to one
identically named wire parameter, strings flatten in place into
`<name>Ptr` / `<name>Length`. -/
def abiParamsSpec (p : String × Ty) : List (String × String) :=
  let n := avoid_keyword (toSnakeCase p.1)
  match p.2 with
  | .bool => [(n, "bool")]
  | .u8 => [(n, "u8")]
  | .u16 => [(n, "u16")]
  | .u32 => [(n, "u32")]
  | .u64 => [(n, "u64")]
  | .s8 => [(n, "s8")]
  | .s16 => [(n, "s16")]
  | .s32 => [(n, "s32")]
  | .s64 => [(n, "s64")]
  | .str => [(n ++ "Ptr", "[*]u8"), (n ++ "Length", "u32")]
  | _ => []

/-- Comparison definition following the spec's words: the lift
statements one source parameter should contribute — a byte-range
declaration for a string, nothing for a primitive. -/
def liftStmtsSpec (p : String × Ty) : List ZigStmt :=
  match p.2 with
  | .str => [.declSlice (avoid_keyword (toSnakeCase p.1))]
  | _ => []

/-- A parameter type the lift stage implements (no `todo!()`). -/
def liftableTy : Ty → Bool
  | .bool | .u8 | .u16 | .u32 | .u64 | .s8 | .s16 | .s32 | .s64 | .str => true
  | _ => false

/-- A result type some branch of the single-result lower path leaves
unimplemented: floats and char die in `get_zig_binding_ty`, compound
`Id` types die in `lower_value`. -/
def unsupportedResultTy : Ty → Bool
  | .float32 | .float64 | .char | .id _ => true
  | _ => false

/-- Comparison definition following the spec's words: the export names
`finish` should register — every world-exported function's name, in
declaration order. -/
def exportNamesSpec (items : List (WorldKey × WorldItem)) : List String :=
  (items.filterMap (fun it => match it.2 with | .func f => some f | _ => none)).map
    (fun f => f.name)

/-- Comparison definition following the spec's words: the post-return
names `finish` should register — the world-exported functions the
oracle classifies as needing cleanup, in declaration order. -/
def postNamesSpec (oracle : Func → Bool) (items : List (WorldKey × WorldItem)) :
    List String :=
  ((items.filterMap (fun it => match it.2 with | .func f => some f | _ => none)).filter
    oracle).map (fun f => f.name)

/-- Right-fold concatenation of a list of text pieces (used by the
comparison definitions, where an induction-friendly shape helps). -/
def concatAll : List String → String
  | [] => ""
  | s :: rest => s ++ concatAll rest

/-- Option-valued map over a list, in an induction-friendly shape (used
by the comparison definitions). -/
def mapMOpt {α β : Type} (f : α → Option β) : List α → Option (List β)
  | [] => some []
  | a :: l =>
      match f a with
      | none => none
      | some b =>
          match mapMOpt f l with
          | none => none
          | some bs => some (b :: bs)

/-- Comparison definition following the spec's words for the amended C7:
the text one stub parameter contributes. -/
def paramPieceSpec (p : String × Ty) : Option String :=
  match get_zig_ty p.2 with
  | none => none
  | some t => some (p.1 ++ ": " ++ t ++ ", ")

/-- Comparison definition following the spec's words for the amended C7:
the stub text `export_interface` emits for one function. -/
def stubOfSpec (f : Func) : Option String :=
  match mapMOpt paramPieceSpec f.params with
  | none => none
  | some ps =>
      match (match f.results with
             | [] => some ""
             | [r] =>
                 match get_zig_ty r with
                 | none => none
                 | some t => some (") " ++ t ++ " \x7b\x7d\n")
             | _ => some "") with
      | none => none
      | some tail => some ("fn " ++ f.name ++ "(" ++ concatAll ps ++ tail)

/-- Comparison definition following the spec's words for the amended C7:
the whole `export_interface` emission — a named struct wrapper holding
one stub per function, concatenated in declaration order. -/
def ifaceStubSpec (resolve : Resolve) (ifaceId : Nat) : Option String :=
  match resolve.interfaces.get? ifaceId with
  | none => none
  | some iface =>
      match iface.name with
      | none => none
      | some iname =>
          match mapMOpt (fun (nf : String × Func) => stubOfSpec nf.2) iface.functions with
          | none => none
          | some stubs =>
              some ("const " ++ toUpperCamelCase iname ++ " = struct \x7b\n"
                ++ concatAll stubs ++ "\x7d;\n\n")

/-! ## Helper lemmas -/

theorem foldlM_none_of_mem {α β : Type} (step : β → α → Option β) (l : List α) (a : α)
    (ha : a ∈ l) (h : ∀ b, step b a = none) : ∀ b0, l.foldlM step b0 = none := by
  induction l with
  | nil => cases ha
  | cons x xs ih =>
    intro b0
    rcases List.mem_cons.mp ha with rfl | hmem
    · simp [List.foldlM_cons, h b0]
    · cases hx : step b0 x with
      | none => simp [List.foldlM_cons, hx]
      | some b1 => simp [List.foldlM_cons, hx, ih hmem]

theorem lift_eq_of_liftable (fb : FunctionBindgen) (n : String) (ty : Ty)
    (h : liftableTy ty = true) :
    lift fb (avoid_keyword (toSnakeCase n)) ty
      = some ⟨fb.args ++ abiParamsSpec (n, ty), fb.lower_src,
              fb.lift_src ++ liftStmtsSpec (n, ty)⟩ := by
  cases ty
  all_goals first
    | (simp [lift, lift_value, abiParamsSpec, liftStmtsSpec]; done)
    | exact absurd h (by simp [liftableTy])

theorem liftFold_eq (ps : List (String × Ty)) :
    ∀ fb : FunctionBindgen, (∀ p ∈ ps, liftableTy p.2 = true) →
    ps.foldlM (fun fb p => lift fb (avoid_keyword (toSnakeCase p.1)) p.2) fb
      = some ⟨fb.args ++ ps.flatMap abiParamsSpec, fb.lower_src,
              fb.lift_src ++ ps.flatMap liftStmtsSpec⟩ := by
  induction ps with
  | nil => intro fb _; simp [List.foldlM_nil]
  | cons p rest ih =>
    intro fb h
    have hp := h p (List.mem_cons_self ..)
    have hrest : ∀ q ∈ rest, liftableTy q.2 = true :=
      fun q hq => h q (List.mem_cons_of_mem _ hq)
    obtain ⟨n, ty⟩ := p
    rw [List.foldlM_cons, lift_eq_of_liftable fb n ty hp]
    simp [ih _ hrest, List.flatMap_cons, List.append_assoc]

theorem guestStep_names (oracle : Func → Bool)
    (acc acc' : String × List String × List String) (it : WorldKey × WorldItem)
    (h : guestStep oracle acc it = some acc') :
    acc'.2.1 = acc.2.1 ++ (match it.2 with | .func f => [f.name] | _ => []) ∧
    acc'.2.2 = acc.2.2 ++ (match it.2 with
      | .func f => if oracle f then [f.name] else []
      | _ => []) := by
  rcases it with ⟨k, item⟩
  cases item with
  | iface i =>
      have hred : guestStep oracle acc (k, .iface i) = some acc := rfl
      rw [hred] at h
      obtain rfl : acc = acc' := Option.some.inj h
      simp
  | type t =>
      have hred : guestStep oracle acc (k, .type t) = none := rfl
      rw [hred] at h
      exact Option.noConfusion h
  | func f =>
      have hred : guestStep oracle acc (k, .func f)
          = (guestFuncText f (acc.1 ++ "fn " ++ f.name ++ "(")).map
              (fun s => (s, acc.2.1 ++ [f.name],
                acc.2.2 ++ (if oracle f then [f.name] else []))) := rfl
      rw [hred] at h
      rcases Option.map_eq_some'.mp h with ⟨s1, _, rfl⟩
      exact ⟨rfl, rfl⟩

theorem guestLoop_names (oracle : Func → Bool) (items : List (WorldKey × WorldItem)) :
    ∀ (acc out : String × List String × List String),
    guestLoop oracle items acc = some out →
    out.2.1 = acc.2.1 ++ exportNamesSpec items ∧
    out.2.2 = acc.2.2 ++ postNamesSpec oracle items := by
  induction items with
  | nil =>
      intro acc out h
      simp [guestLoop] at h
      simp [← h, exportNamesSpec, postNamesSpec]
  | cons it rest ih =>
      intro acc out h
      simp only [guestLoop, List.foldlM_cons] at h
      cases hstep : guestStep oracle acc it with
      | none =>
          rw [hstep] at h
          exact Option.noConfusion h
      | some acc1 =>
          rw [hstep] at h
          replace h : List.foldlM (guestStep oracle) acc1 rest = some out := h
          have h1 := guestStep_names oracle acc acc1 it hstep
          have h2 := ih acc1 out h
          rcases it with ⟨k, item⟩
          cases item with
          | iface i =>
              simp at h1
              refine ⟨?_, ?_⟩
              · rw [h2.1, h1.1]
                simp [exportNamesSpec, List.filterMap_cons]
              · rw [h2.2, h1.2]
                simp [postNamesSpec, List.filterMap_cons]
          | func f =>
              simp at h1
              refine ⟨?_, ?_⟩
              · rw [h2.1, h1.1]
                simp [exportNamesSpec, List.filterMap_cons, List.append_assoc]
              · rw [h2.2, h1.2, List.append_assoc]
                by_cases hf : oracle f = true <;>
                  simp [postNamesSpec, List.filterMap_cons, List.filter_cons, hf]
          | type t =>
              simp at h1
              refine ⟨?_, ?_⟩
              · rw [h2.1, h1.1]
                simp [exportNamesSpec, List.filterMap_cons]
              · rw [h2.2, h1.2]
                simp [postNamesSpec, List.filterMap_cons]

theorem paramsFold_eq (ps : List (String × Ty)) :
    ∀ s : String,
    ps.foldlM paramStubStep s
      = (mapMOpt paramPieceSpec ps).map (fun l => s ++ concatAll l) := by
  induction ps with
  | nil => intro s; simp [mapMOpt, concatAll]
  | cons p rest ih =>
      intro s
      rw [List.foldlM_cons]
      cases ht : get_zig_ty p.2 with
      | none =>
          have h1 : paramStubStep s p = none := by simp [paramStubStep, ht]
          rw [h1]
          have h2 : mapMOpt paramPieceSpec (p :: rest) = none := by
            simp [mapMOpt, paramPieceSpec, ht]
          rw [h2]
          rfl
      | some t =>
          have h1 : paramStubStep s p = some (s ++ p.1 ++ ": " ++ t ++ ", ") := by
            simp [paramStubStep, ht]
          rw [h1]
          show List.foldlM paramStubStep (s ++ p.1 ++ ": " ++ t ++ ", ") rest
            = (mapMOpt paramPieceSpec (p :: rest)).map (fun l => s ++ concatAll l)
          rw [ih]
          cases hrest : mapMOpt paramPieceSpec rest with
          | none => simp [mapMOpt, paramPieceSpec, ht, hrest]
          | some l =>
              simp [mapMOpt, paramPieceSpec, ht, hrest, concatAll, String.append_assoc]

theorem ifaceStubStep_eq (s : String) (nf : String × Func) :
    ifaceStubStep s nf = (stubOfSpec nf.2).map (fun t => s ++ t) := by
  unfold ifaceStubStep stubOfSpec
  rw [paramsFold_eq]
  cases hps : mapMOpt paramPieceSpec nf.2.params with
  | none => rfl
  | some l =>
      simp only [Option.map_some']
      rcases nf.2.results with _ | ⟨r, _ | ⟨r2, rs⟩⟩
      · simp [concatAll, String.append_assoc, String.append_empty]
      · cases hr : get_zig_ty r with
        | none => simp [hr]
        | some t => simp [hr, concatAll, String.append_assoc]
      · simp [concatAll, String.append_assoc, String.append_empty]

theorem ifaceFold_eq (funcs : List (String × Func)) :
    ∀ s : String,
    funcs.foldlM ifaceStubStep s
      = (mapMOpt (fun (nf : String × Func) => stubOfSpec nf.2) funcs).map
          (fun l => s ++ concatAll l) := by
  induction funcs with
  | nil => intro s; simp [mapMOpt, concatAll]
  | cons nf rest ih =>
      intro s
      rw [List.foldlM_cons, ifaceStubStep_eq]
      cases hnf : stubOfSpec nf.2 with
      | none => simp [mapMOpt, hnf]
      | some t =>
          simp only [Option.map_some']
          show List.foldlM ifaceStubStep (s ++ t) rest
            = (mapMOpt (fun (nf : String × Func) => stubOfSpec nf.2) (nf :: rest)).map
                (fun l => s ++ concatAll l)
          rw [ih]
          cases hrest : mapMOpt (fun (nf : String × Func) => stubOfSpec nf.2) rest with
          | none => simp [mapMOpt, hnf, hrest]
          | some l => simp [mapMOpt, hnf, hrest, concatAll, String.append_assoc]

theorem export_interface_eq_spec (resolve : Resolve) (st : ZigState)
    (key : WorldKey) (ifaceId : Nat) :
    export_interface resolve st key ifaceId
      = (ifaceStubSpec resolve ifaceId).map
          (fun t => { st with src := st.src ++ t }) := by
  unfold export_interface ifaceStubSpec
  cases hif : resolve.interfaces.get? ifaceId with
  | none => rfl
  | some iface =>
      cases hname : iface.name with
      | none => simp [hname]
      | some iname =>
          simp only [hname]
          rw [ifaceFold_eq]
          cases hstubs : mapMOpt (fun (nf : String × Func) => stubOfSpec nf.2)
              iface.functions with
          | none => simp [hstubs]
          | some l =>
              simp [hstubs, concatAll, String.append_assoc]

theorem scratch_readback (p l : Nat) (init : List Nat) (h8 : init.length = 8) :
    readLE32 (writeLE32 (writeLE32 init 0 p) 4 l) 0 = p % 4294967296 ∧
    readLE32 (writeLE32 (writeLE32 init 0 p) 4 l) 4 = l % 4294967296 := by
  rcases init with _ | ⟨b0, _ | ⟨b1, _ | ⟨b2, _ | ⟨b3, _ | ⟨b4, _ | ⟨b5, _ | ⟨b6, _ | ⟨b7, rest⟩⟩⟩⟩⟩⟩⟩⟩ <;>
    simp at h8
  subst h8
  constructor <;> (simp [writeLE32, readLE32, setByte, List.set, List.getD]; omega)

theorem exportFunc_oracle_split (resolve : Resolve) (ig : InterfaceGenerator)
    (f : Func) (pre : Option String) :
    exportFunc resolve ig f pre true
      = (exportFunc resolve ig f pre false).map
          (fun g => { g with src := g.src ++ postBlockText pre f.name }) := by
  unfold exportFunc
  cases exportFuncCore resolve ig f pre <;> simp

theorem exportFunc_none_of_unsupported (resolve : Resolve) (ig : InterfaceGenerator)
    (f : Func) (pre : Option String) (oracle : Bool) (r : Ty)
    (hres : f.results = [r])
    (hbad : (∃ p ∈ f.params, liftableTy p.2 = false) ∨ unsupportedResultTy r = true) :
    exportFunc resolve ig f pre oracle = none := by
  have hcore : exportFuncCore resolve ig f pre = none := by
    unfold exportFuncCore
    cases hfb : fbStage f with
    | none => rfl
    | some fb =>
        rcases hbad with ⟨p, hp, hbadp⟩ | hbadr
        · exfalso
          have hl : liftStage f = none := by
            unfold liftStage
            exact foldlM_none_of_mem _ f.params p hp
              (fun b => by
                rcases p with ⟨n, ty⟩
                cases ty <;> simp_all [liftableTy, lift, lift_value]) _
          have : fbStage f = none := by
            unfold fbStage
            rw [hres, hl]
          rw [this] at hfb
          exact Option.noConfusion hfb
        · have hlast : f.results.getLast? = some r := by rw [hres]; rfl
          rw [hlast]
          cases r <;> simp_all [unsupportedResultTy, get_zig_binding_ty]
  simp [exportFunc, hcore]

theorem export_funcs_none_of_mem (resolve : Resolve) (st : ZigState) (w : Nat)
    (funcs : List (String × Func)) (oracle : Func → Bool) (nf : String × Func)
    (hmem : nf ∈ funcs)
    (hnone : ∀ g : InterfaceGenerator, exportFunc resolve g nf.2 none (oracle nf.2) = none) :
    export_funcs resolve st w funcs oracle = none := by
  unfold export_funcs
  cases resolve.worlds.get? w with
  | none => rfl
  | some wrld =>
      rw [foldlM_none_of_mem
        (fun g (p : String × Func) => exportFunc resolve g p.2 none (oracle p.2))
        funcs nf hmem hnone]

theorem generateWorld_none_of_export_funcs_none (resolve : Resolve) (w : Nat)
    (oracle : Func → Bool) (wrld : World)
    (hw : resolve.worlds.get? w = some wrld)
    (hne : (exportedFuncs wrld).isEmpty = false)
    (hef : ∀ st : ZigState, export_funcs resolve st w (exportedFuncs wrld) oracle = none) :
    generateWorld resolve w oracle = none := by
  unfold generateWorld
  simp only [hw]
  cases h1 : (importedIfaces wrld).foldlM
      (fun s ki => import_interface resolve s ki.1 ki.2 oracle)
      ({ world := wrld.name, src := "" } : ZigState) with
  | none => rfl
  | some st1 =>
      dsimp only
      cases h2 : (if (importedFuncs wrld).isEmpty then some st1 else import_funcs) with
      | none => rfl
      | some st2 =>
          dsimp only
          cases h3 : (if (importedTypes wrld).isEmpty then some st2 else import_types) with
          | none => rfl
          | some st3 =>
              dsimp only
              cases h4 : (exportedIfaces wrld).foldlM
                  (fun s ki => export_interface resolve s ki.1 ki.2) st3 with
              | none => rfl
              | some st4 =>
                  dsimp only
                  rw [hne]
                  simp [hef st4]

theorem guestLoop_none_of_type (oracle : Func → Bool)
    (items : List (WorldKey × WorldItem)) (k : WorldKey) (t : Nat)
    (hmem : (k, WorldItem.type t) ∈ items) :
    ∀ acc, guestLoop oracle items acc = none := by
  intro acc
  exact foldlM_none_of_mem (guestStep oracle) items (k, .type t) hmem
    (fun b => rfl) acc

theorem finish_none_of_exported_type (resolve : Resolve) (st : ZigState) (w : Nat)
    (oracle : Func → Bool) (wrld : World)
    (hw : resolve.worlds.get? w = some wrld) (k : WorldKey) (t : Nat)
    (hmem : (k, WorldItem.type t) ∈ wrld.exports) :
    finish resolve st w oracle = none := by
  unfold finish
  simp only [hw]
  rw [guestLoop_none_of_type oracle wrld.exports k t hmem]

theorem liftStmtsSpec_no_alloc (ps : List (String × Ty)) :
    (ps.flatMap liftStmtsSpec).flatMap stmtAllocSizes = [] := by
  induction ps with
  | nil => rfl
  | cons p rest ih =>
      rw [List.flatMap_cons, List.flatMap_append, ih, List.append_nil]
      rcases p with ⟨n, ty⟩
      cases ty <;> rfl

/-- Number of positions of `l` at which `pat` occurs as a prefix (a
plain substring-occurrence counter used to state the C7 theorems). -/
def countPrefixOccs (pat : List Char) : List Char → Nat
  | [] => 0
  | c :: rest =>
      (if pat.isPrefixOf (c :: rest) then 1 else 0) + countPrefixOccs pat rest

/-- Substring-occurrence count on strings. -/
def occCount (pat s : String) : Nat :=
  countPrefixOccs pat.data s.data

/-! ## Concrete fixtures -/

/-- Scenario B's function: `shout(s: string) -> string`. -/
def shoutF : Func :=
  { name := "shout", params := [("s", Ty.str)], results := [Ty.str] }

/-- Scenario B's interface `format` of package `text:ops`. -/
def shoutIface : InterfaceDef :=
  { name := some "format", package := some 0, functions := [("shout", shoutF)] }

/-- Scenario B's resolve: one world exporting the `format` interface. -/
def shoutResolve : Resolve :=
  { worlds := [{ name := "textworld", imports := [],
                 exports := [(WorldKey.iface 0, WorldItem.iface 0)] }],
    interfaces := [shoutIface],
    packages := [{ ns := "text", name := "ops" }] }

/-- A two-result function `pair: func() -> (u32, u32)`. -/
def pairF : Func := { name := "pair", params := [], results := [Ty.u32, Ty.u32] }

/-- A world exporting the two-result `pair` at world level. -/
def pairResolve : Resolve :=
  { worlds := [{ name := "demo", imports := [],
                 exports := [(WorldKey.name "pair", WorldItem.func pairF)] }],
    interfaces := [], packages := [] }

/-- A zero-result function `ping: func()`. -/
def pingF : Func := { name := "ping", params := [], results := [] }

/-- A world exporting the zero-result `ping` at world level. -/
def pingResolve : Resolve :=
  { worlds := [{ name := "demo", imports := [],
                 exports := [(WorldKey.name "ping", WorldItem.func pingF)] }],
    interfaces := [], packages := [] }

/-- A resolve holding one world that exports exactly one world-level
function. -/
def soloWorldResolve (wname : String) (k : WorldKey) (f : Func) : Resolve :=
  { worlds := [{ name := wname, imports := [], exports := [(k, WorldItem.func f)] }],
    interfaces := [], packages := [] }

/-! ## Claims -/

/-- C8: for every primitive type supported by this backend (bool, u8,
u16, u32, u64, s8, s16, s32, s64), the wire-type mapping
`get_zig_binding_ty` and the storage-type mapping `get_zig_ty` return
the identical string. -/
theorem c8_primitive_wire_eq_storage :
    ∀ t ∈ supportedPrimitives, get_zig_ty t = get_zig_binding_ty t := by
  decide

theorem c8_primitive_wire_eq_storage_witness :
    Ty.u32 ∈ supportedPrimitives ∧ get_zig_ty Ty.u32 = get_zig_binding_ty Ty.u32 :=
  ⟨by decide, c8_primitive_wire_eq_storage Ty.u32 (by decide)⟩

/-- C2 (code bug): the generated post-return entry point never
reconstructs the (pointer, length) pair from the scratch buffer in
memory — it writes its own argument into a zeroed local buffer and
reads the length back from that buffer's untouched bytes 4..8, so for
every wire argument it frees a zero-length slice at the argument
address.  Yet after lowering a 5-byte string the scratch buffer records
length 5 and the lowering allocated 8 bytes, neither of which is ever
freed. -/
theorem c2_post_return_frees_zero_length :
    (∀ arg : Nat, postReturnSem arg = (arg % 4294967296, 0)) ∧
    readLE32 (lowerStringSem 4096 5 (List.replicate 8 0) ⟨100, []⟩).scratch 4 = 5 ∧
    (lowerStringSem 4096 5 (List.replicate 8 0) ⟨100, []⟩).state.log = [(100, 8)] ∧
    (postReturnSem 100).2 ≠ 5 ∧ (postReturnSem 100).2 ≠ 8 := by
  refine ⟨?_, by decide, by decide, by decide, by decide⟩
  intro arg
  simp [postReturnSem, writeLE32, readLE32, setByte, List.replicate, List.set,
    List.getD, Prod.ext_iff]
  omega

/-- C3 (counterexample): lowering a single string result of byte length
5 performs its one allocation with size 8 — the fixed scratch-header
size — not the result's byte length, refuting "allocation sized to the
result's byte length". -/
theorem c3_alloc_is_fixed_8_bytes :
    (lowerStringSem 4096 5 (List.replicate 8 0) ⟨100, []⟩).state.log
      = [(100, 8)] ∧ (8 : Nat) ≠ 5 := by
  exact ⟨rfl, by decide⟩

/-- C3 (amended): for every exported function with exactly one string
result, the LOWER stage performs exactly one allocation of the fixed
size 8 (the scratch header), writes the result's (pointer, length) as
two little-endian 32-bit words into that 8-byte buffer, and returns the
scratch buffer's address as the function's single pointer-typed
(`[*]u8`) wire result. -/
theorem c3_lower_string_single_8byte_alloc
    (p l : Nat) (init : List Nat) (st : AllocState)
    (hp : p < 4294967296) (hl : l < 4294967296) (h8 : init.length = 8) :
    (lowerStringSem p l init st).state.log = st.log ++ [(st.next, 8)] ∧
    (lowerStringSem p l init st).retPtr = st.next ∧
    readLE32 (lowerStringSem p l init st).scratch 0 = p ∧
    readLE32 (lowerStringSem p l init st).scratch 4 = l ∧
    (∀ fb : FunctionBindgen, lower_value fb "result" Ty.str
        = some { fb with lower_src := fb.lower_src ++ [.lowerStringBlock] }) ∧
    stmtAllocSizes ZigStmt.lowerStringBlock = [8] ∧
    get_zig_binding_ty Ty.str = some "[*]u8" := by
  obtain ⟨h0, h4⟩ := scratch_readback p l init h8
  refine ⟨rfl, rfl, ?_, ?_, fun fb => rfl, rfl, rfl⟩
  · rw [show (lowerStringSem p l init st).scratch
        = writeLE32 (writeLE32 init 0 p) 4 l from rfl, h0]
    exact Nat.mod_eq_of_lt hp
  · rw [show (lowerStringSem p l init st).scratch
        = writeLE32 (writeLE32 init 0 p) 4 l from rfl, h4]
    exact Nat.mod_eq_of_lt hl

theorem c3_lower_string_single_8byte_alloc_witness :
    (lowerStringSem 4096 5 (List.replicate 8 0) ⟨100, []⟩).state.log
      = [] ++ [(100, 8)] :=
  (c3_lower_string_single_8byte_alloc 4096 5 (List.replicate 8 0) ⟨100, []⟩
    (by decide) (by decide) (by decide)).1

/-- C6 (code bug): for the zero-result exported function `ping`,
binding generation does not succeed with an empty LOWER stage — the
unconditional unwrap of the last result type panics, aborting the whole
world with no artifact. -/
theorem c6_zero_result_export_panics :
    exportFunc shoutResolve {} pingF none false = none ∧
    generateWorld pingResolve 0 (fun _ => false) = none := by
  exact ⟨rfl, rfl⟩

/-- C1 (counterexample): a world whose only export is the two-result
function `pair: func() -> (u32, u32)` is generated successfully — the
multi-result match arms are empty, no diagnostic is raised, and an
output file is produced. -/
theorem c1_multi_result_does_not_abort :
    (generateWorld pairResolve 0 (fun _ => false)).isSome = true := by
  rfl

/-- C1 (amended): a single-result function with an unimplemented
parameter type (float32/float64/char/compound `Id`) or an unimplemented
result type aborts generation — `export` panics in a `todo!()` branch —
for the whole world, and no output file is produced; but a function
with two or more results does NOT abort (see the counterexample): its
match arms are empty and generation proceeds. -/
theorem c1_unsupported_type_aborts (f : Func) (r : Ty)
    (hres : f.results = [r])
    (hbad : (∃ p ∈ f.params, liftableTy p.2 = false) ∨ unsupportedResultTy r = true) :
    (∀ (resolve : Resolve) (ig : InterfaceGenerator) (pre : Option String) (oracle : Bool),
        exportFunc resolve ig f pre oracle = none) ∧
    (∀ (wname : String) (k : WorldKey) (oracle : Func → Bool),
        generateWorld (soloWorldResolve wname k f) 0 oracle = none) := by
  constructor
  · intro resolve ig pre oracle
    exact exportFunc_none_of_unsupported resolve ig f pre oracle r hres hbad
  · intro wname k oracle
    refine generateWorld_none_of_export_funcs_none (soloWorldResolve wname k f) 0 oracle
      { name := wname, imports := [], exports := [(k, WorldItem.func f)] } rfl rfl ?_
    intro st
    apply export_funcs_none_of_mem _ _ _ _ _ (f.name, f) (List.mem_singleton_self _)
    intro g
    exact exportFunc_none_of_unsupported _ g f none (oracle f) r hres hbad

theorem c1_unsupported_type_aborts_witness :
    exportFunc shoutResolve {}
      ({ name := "bad", params := [("c", Ty.char)], results := [Ty.u32] } : Func)
      none false = none :=
  (c1_unsupported_type_aborts
    ({ name := "bad", params := [("c", Ty.char)], results := [Ty.u32] } : Func) Ty.u32 rfl
    (Or.inl ⟨("c", Ty.char), List.mem_singleton_self _, rfl⟩)).1 shoutResolve {} none false

/-- C4: for every exported single-result function whose parameter types
the lift stage implements, the lift pass yields exactly the in-place
positional expansion of the declaration-ordered parameter list — each
string parameter contributing the two ABI parameters `<name>Ptr`
(`[*]u8`) and `<name>Length` (`u32`) in its original position, each
primitive one identically named parameter — the lift statements are
exactly the byte-range slice declarations of the string parameters in
order, and the LIFT stage performs no allocation. -/
theorem c4_string_params_expand_in_place (f : Func)
    (hres : f.results.length = 1)
    (hlift : ∀ p ∈ f.params, liftableTy p.2 = true) :
    liftStage f = some ⟨f.params.flatMap abiParamsSpec, [],
      f.params.flatMap liftStmtsSpec⟩ ∧
    (f.params.flatMap liftStmtsSpec).flatMap stmtAllocSizes = [] ∧
    (∀ p ∈ f.params, p.2 = Ty.str →
      abiParamsSpec p = [(avoid_keyword (toSnakeCase p.1) ++ "Ptr", "[*]u8"),
                         (avoid_keyword (toSnakeCase p.1) ++ "Length", "u32")]) := by
  refine ⟨?_, ?_, ?_⟩
  · have h := liftFold_eq f.params {} hlift
    simpa [liftStage] using h
  · exact liftStmtsSpec_no_alloc f.params
  · intro p hp hstr
    rcases p with ⟨n, ty⟩
    cases hstr
    rfl

theorem c4_string_params_expand_in_place_witness :
    liftStage shoutF = some ⟨shoutF.params.flatMap abiParamsSpec, [],
      shoutF.params.flatMap liftStmtsSpec⟩ :=
  (c4_string_params_expand_in_place shoutF (by decide) (by decide)).1

/-- C5: a post-return entry point is emitted if and only if the external
classification oracle answers true for the function — the oracle-true
run of `InterfaceGenerator::export` is exactly the oracle-false run plus
the post-return block, whose declared Zig symbol is the fixed template
`__post_return_` prepended to the primary export's resolved name — and
`finish` registers (as `cabi_post_<name>`) exactly the world-exported
functions the oracle classifies as needing cleanup, in order. -/
theorem c5_post_return_iff_oracle :
    (∀ (resolve : Resolve) (ig : InterfaceGenerator) (f : Func) (pre : Option String),
      exportFunc resolve ig f pre true
        = (exportFunc resolve ig f pre false).map
            (fun g => { g with src := g.src ++ postBlockText pre f.name })) ∧
    (∀ (pre : Option String) (n : String),
      postZigFnName pre n = "__post_return_" ++ resolvedExportName pre n) ∧
    (∀ n : String, postReturnLine n
        = "@export(__post_return_" ++ n
          ++ ", . \x7b .name = \"cabi_post_" ++ n ++ "\" \x7d);\n") ∧
    (∀ (oracle : Func → Bool) (items : List (WorldKey × WorldItem))
        (acc : String × List String × List String),
      (guestLoop oracle items acc).map (fun o => o.2.2)
        = (guestLoop oracle items acc).map
            (fun _ => acc.2.2 ++ postNamesSpec oracle items)) := by
  refine ⟨exportFunc_oracle_split, fun pre n => rfl, fun n => rfl, ?_⟩
  intro oracle items acc
  cases hgl : guestLoop oracle items acc with
  | none => rfl
  | some out =>
      simp [(guestLoop_names oracle items acc out hgl).2]

/-- C7 (counterexample): `export_interface` on the exported interface
`text:ops/format` with `shout(s: string) -> string` emits only a struct
stub — the output contains no `#`-qualified export symbol at all and no
post-return entry point, refuting the claim that each exported
interface's bindings carry `namespace:package/interface#function`
symbols, wire parameters, a scratch header and a post-return. -/
theorem c7_export_interface_emits_unqualified_stub :
    export_interface shoutResolve { world := "textworld", src := "" } (WorldKey.iface 0) 0
      = some ({ world := "textworld",
                src := "const Format = struct \x7b\nfn shout(s: []u8, ) []u8 \x7b\x7d\n\x7d;\n\n" } :
              ZigState) ∧
    occCount "#" "const Format = struct \x7b\nfn shout(s: []u8, ) []u8 \x7b\x7d\n\x7d;\n\n" = 0 ∧
    occCount "__post_return_"
      "const Format = struct \x7b\nfn shout(s: []u8, ) []u8 \x7b\x7d\n\x7d;\n\n" = 0 := by
  refine ⟨?_, by decide, by decide⟩
  rfl

set_option maxRecDepth 100000 in
/-- C7 (amended): for each exported interface, `export_interface`
resolves the interface name and emits one unqualified stub signature per
function inside a `const <Name> = struct` wrapper, concatenated in
declaration order; the package/interface-qualified bindings — for
`shout` the twice-occurring symbol `text:ops/format#shout` (primary
export and post-return), the `sPtr`/`sLength` wire parameters, and the
8-byte scratch header (`alloc(8)`) — are emitted by the
`import_interface` path. -/
theorem c7_stub_and_qualified_paths :
    (∀ (resolve : Resolve) (st : ZigState) (key : WorldKey) (id : Nat),
      export_interface resolve st key id
        = (ifaceStubSpec resolve id).map (fun t => { st with src := st.src ++ t })) ∧
    ((import_interface shoutResolve { world := "textworld", src := "" }
        (WorldKey.iface 0) 0 (fun _ => true)).map
      (fun st => (occCount "text:ops/format#shout" st.src,
                  occCount "__post_return_text:ops/format#shout" st.src,
                  occCount "sPtr: [*]u8, sLength: u32, " st.src,
                  occCount "alloc(8)" st.src))
      = some (2, 1, 1, 1)) := by
  exact ⟨export_interface_eq_spec, by decide⟩

/-- C9: the generator is a deterministic pure transform — the embedded
pipeline consults no ambient state, so two successful runs on the
identical schema produce identical (byte-identical) artifacts. -/
theorem c9_generation_deterministic (resolve : Resolve) (w : Nat)
    (oracle : Func → Bool) (out1 out2 : String × String)
    (h1 : generateWorld resolve w oracle = some out1)
    (h2 : generateWorld resolve w oracle = some out2) : out1 = out2 :=
  Option.some.inj (h1.symm.trans h2)

set_option maxRecDepth 100000 in
theorem c9_generation_deterministic_witness :
    ("w.zig", preambleText ++ "const Guest = struct \x7b\n"
        ++ comptimeHeadText ++ mainStubText)
      = ("w.zig", preambleText ++ "const Guest = struct \x7b\n"
        ++ comptimeHeadText ++ mainStubText) :=
  c9_generation_deterministic
    { worlds := [{ name := "w", imports := [], exports := [] }],
      interfaces := [], packages := [] } 0 (fun _ => false)
    ("w.zig", preambleText ++ "const Guest = struct \x7b\n"
      ++ comptimeHeadText ++ mainStubText)
    ("w.zig", preambleText ++ "const Guest = struct \x7b\n"
      ++ comptimeHeadText ++ mainStubText) (by rfl) (by rfl)

/-- A world item that is a world-level function. -/
def isFuncItem : WorldItem → Bool
  | .func _ => true
  | _ => false

/-- A world item that is a type. -/
def isTypeItem : WorldItem → Bool
  | .type _ => true
  | _ => false

theorem generateWorld_none_of_imported_funcs (resolve : Resolve) (w : Nat)
    (oracle : Func → Bool) (wrld : World)
    (hw : resolve.worlds.get? w = some wrld)
    (hne : (importedFuncs wrld).isEmpty = false) :
    generateWorld resolve w oracle = none := by
  unfold generateWorld
  simp only [hw]
  cases h1 : (importedIfaces wrld).foldlM
      (fun s ki => import_interface resolve s ki.1 ki.2 oracle)
      ({ world := wrld.name, src := "" } : ZigState) with
  | none => rfl
  | some st1 =>
      dsimp only
      rw [hne]
      rfl

theorem generateWorld_none_of_imported_types (resolve : Resolve) (w : Nat)
    (oracle : Func → Bool) (wrld : World)
    (hw : resolve.worlds.get? w = some wrld)
    (hne : (importedTypes wrld).isEmpty = false) :
    generateWorld resolve w oracle = none := by
  unfold generateWorld
  simp only [hw]
  cases h1 : (importedIfaces wrld).foldlM
      (fun s ki => import_interface resolve s ki.1 ki.2 oracle)
      ({ world := wrld.name, src := "" } : ZigState) with
  | none => rfl
  | some st1 =>
      dsimp only
      cases h2 : (if (importedFuncs wrld).isEmpty then some st1 else import_funcs) with
      | none => rfl
      | some st2 =>
          dsimp only
          rw [hne]
          rfl

theorem generateWorld_none_of_exported_type (resolve : Resolve) (w : Nat)
    (oracle : Func → Bool) (wrld : World)
    (hw : resolve.worlds.get? w = some wrld) (k : WorldKey) (t : Nat)
    (hmem : (k, WorldItem.type t) ∈ wrld.exports) :
    generateWorld resolve w oracle = none := by
  unfold generateWorld
  simp only [hw]
  cases h1 : (importedIfaces wrld).foldlM
      (fun s ki => import_interface resolve s ki.1 ki.2 oracle)
      ({ world := wrld.name, src := "" } : ZigState) with
  | none => rfl
  | some st1 =>
      dsimp only
      cases h2 : (if (importedFuncs wrld).isEmpty then some st1 else import_funcs) with
      | none => rfl
      | some st2 =>
          dsimp only
          cases h3 : (if (importedTypes wrld).isEmpty then some st2 else import_types) with
          | none => rfl
          | some st3 =>
              dsimp only
              cases h4 : (exportedIfaces wrld).foldlM
                  (fun s ki => export_interface resolve s ki.1 ki.2) st3 with
              | none => rfl
              | some st4 =>
                  dsimp only
                  cases h5 : (if (exportedFuncs wrld).isEmpty then some st4
                      else export_funcs resolve st4 w (exportedFuncs wrld) oracle) with
                  | none => rfl
                  | some st5 =>
                      dsimp only
                      exact finish_none_of_exported_type resolve st5 w oracle wrld hw k t hmem

/-- C10: for every world containing a world-level imported function, an
imported type, or a world-level exported type, the generator aborts in
the corresponding unimplemented branch (`import_funcs`, `import_types`,
or the exported `WorldItem::Type` arm of `finish`) and no artifact is
produced — these schema shapes are never silently skipped. -/
theorem c10_unimplemented_world_items_abort (resolve : Resolve) (w : Nat)
    (oracle : Func → Bool) (wrld : World)
    (hw : resolve.worlds.get? w = some wrld)
    (hbad : (∃ it ∈ wrld.imports, isFuncItem it.2 = true) ∨
            (∃ it ∈ wrld.imports, isTypeItem it.2 = true) ∨
            (∃ it ∈ wrld.exports, isTypeItem it.2 = true)) :
    generateWorld resolve w oracle = none := by
  rcases hbad with ⟨it, hmem, hfi⟩ | ⟨it, hmem, hti⟩ | ⟨it, hmem, hti⟩
  · rcases it with ⟨k, item⟩
    cases item with
    | iface i => exact Bool.noConfusion hfi
    | type t => exact Bool.noConfusion hfi
    | func f =>
        apply generateWorld_none_of_imported_funcs resolve w oracle wrld hw
        have hm : f ∈ importedFuncs wrld :=
          List.mem_filterMap.mpr ⟨(k, .func f), hmem, rfl⟩
        cases he : importedFuncs wrld with
        | nil => rw [he] at hm; cases hm
        | cons x xs => rfl
  · rcases it with ⟨k, item⟩
    cases item with
    | iface i => exact Bool.noConfusion hti
    | func f => exact Bool.noConfusion hti
    | type t =>
        apply generateWorld_none_of_imported_types resolve w oracle wrld hw
        have hm : t ∈ importedTypes wrld :=
          List.mem_filterMap.mpr ⟨(k, .type t), hmem, rfl⟩
        cases he : importedTypes wrld with
        | nil => rw [he] at hm; cases hm
        | cons x xs => rfl
  · rcases it with ⟨k, item⟩
    cases item with
    | iface i => exact Bool.noConfusion hti
    | func f => exact Bool.noConfusion hti
    | type t =>
        exact generateWorld_none_of_exported_type resolve w oracle wrld hw k t hmem

theorem c10_unimplemented_world_items_abort_witness :
    generateWorld
      { worlds := [{ name := "w",
                     imports := [(WorldKey.name "ping", WorldItem.func pingF)],
                     exports := [] }],
        interfaces := [], packages := [] } 0 (fun _ => false) = none :=
  c10_unimplemented_world_items_abort
    { worlds := [{ name := "w",
                   imports := [(WorldKey.name "ping", WorldItem.func pingF)],
                   exports := [] }],
      interfaces := [], packages := [] } 0 (fun _ => false)
    { name := "w", imports := [(WorldKey.name "ping", WorldItem.func pingF)],
      exports := [] } rfl
    (Or.inl ⟨(WorldKey.name "ping", WorldItem.func pingF),
      List.mem_singleton_self _, rfl⟩)
